import Mathlib

/-!
Verification of the celezdial-selekta synthesizer engine.

Shallow embedding of the signal-chain router, parameter engine and
chaos controller found in `src/App.js`, the preset tables in
`src/tuning.js`, `src/presets/zodiac.js`, `src/presets/deep-space-oracle.js`
and the unnamed preset modules.  Real-valued audio parameters are
modelled as `ℝ` (or `ℚ` where only ordering and equality matter),
JS objects as structures, and the mutable audio graph as explicit
state passed through step functions.
-/

/- ═══════════ Echo feedback presets (macro curves + drive) ═══════════

Each preset module defines `TUNING.echoSatDrive`, a SHADOW (chaos)
`delayFeedback` target, and a macro curve `MACROS.echo.params.echoFeedback`
mapping the macro value `m ∈ [0,1]` to the feedback-gain coefficient.
The loop gain of the feedback delay is `echoSatDrive * echoFeedback m`. -/

namespace TuningPreset

/-- The `echoSatDrive` from the MACROS document of `src/tuning.js`. -/
def echoSatDrive : ℝ := 0.6

/-- The `SHADOW.delayFeedback` from the MACROS document of `src/tuning.js`. -/
def shadowDelayFeedback : ℝ := 0.87

/-- The `MACROS.echo.params.echoFeedback` from `src/tuning.js`:
`m <= 0.5 ? (m / 0.5) * 0.68 : 0.68 + 0.2 * Math.pow((m - 0.5) / 0.5, 1)`. -/
noncomputable def echoFeedback (m : ℝ) : ℝ :=
  if m ≤ 0.5 then (m / 0.5) * 0.68 else 0.68 + 0.2 * ((m - 0.5) / 0.5) ^ (1 : ℝ)

end TuningPreset

namespace ZodiacPreset

/-- The `echoSatDrive` from `src/presets/zodiac.js`. -/
def echoSatDrive : ℝ := 0.9

/-- The `SHADOW.delayFeedback` from `src/presets/zodiac.js`. -/
def shadowDelayFeedback : ℝ := 0.88

/-- The `MACROS.echo.params.echoFeedback` from `src/presets/zodiac.js`:
`m <= 0.5 ? (m / 0.5) * 0.62 : 0.62 + 0.23 * Math.pow((m - 0.5) / 0.5, 1.3)`. -/
noncomputable def echoFeedback (m : ℝ) : ℝ :=
  if m ≤ 0.5 then (m / 0.5) * 0.62
  else 0.62 + 0.23 * ((m - 0.5) / 0.5) ^ (1.3 : ℝ)

end ZodiacPreset

namespace OraclePreset

/-- The `echoSatDrive` from `src/presets/deep-space-oracle.js`. -/
def echoSatDrive : ℝ := 0.45

/-- The `SHADOW.delayFeedback` from `src/presets/deep-space-oracle.js`. -/
def shadowDelayFeedback : ℝ := 0.92

/-- The `MACROS.echo.params.echoFeedback` from `src/presets/deep-space-oracle.js`:
`m <= 0.5 ? (m / 0.5) * 0.55 : 0.55 + 0.37 * Math.pow((m - 0.5) / 0.5, 0.8)`. -/
noncomputable def echoFeedback (m : ℝ) : ℝ :=
  if m ≤ 0.5 then (m / 0.5) * 0.55
  else 0.55 + 0.37 * ((m - 0.5) / 0.5) ^ (0.8 : ℝ)

end OraclePreset

namespace TapePreset

/-- The `echoSatDrive` from the first unnamed preset module (tape machine). -/
def echoSatDrive : ℝ := 0.8

/-- The `SHADOW.delayFeedback` from the first unnamed preset module. -/
def shadowDelayFeedback : ℝ := 0.92

/-- The `MACROS.echo.params.echoFeedback` from the first unnamed preset module:
`m <= 0.5 ? (m / 0.5) * 0.75 : 0.75 + 0.13 * ((m - 0.5) / 0.5)`. -/
noncomputable def echoFeedback (m : ℝ) : ℝ :=
  if m ≤ 0.5 then (m / 0.5) * 0.75 else 0.75 + 0.13 * ((m - 0.5) / 0.5)

end TapePreset

namespace FurnacePreset

/-- The `echoSatDrive` from the second unnamed preset module (furnace). -/
def echoSatDrive : ℝ := 0.85

/-- The `SHADOW.delayFeedback` from the second unnamed preset module. -/
def shadowDelayFeedback : ℝ := 0.82

/-- The `MACROS.echo.params.echoFeedback` from the second unnamed preset module:
`m <= 0.5 ? (m / 0.5) * 0.6 : 0.6 + 0.22 * Math.pow((m - 0.5) / 0.5, 0.8)`. -/
noncomputable def echoFeedback (m : ℝ) : ℝ :=
  if m ≤ 0.5 then (m / 0.5) * 0.6
  else 0.6 + 0.22 * ((m - 0.5) / 0.5) ^ (0.8 : ℝ)

end FurnacePreset

namespace GlassPreset

/-- The `echoSatDrive` from the third unnamed preset module (glass). -/
def echoSatDrive : ℝ := 0.5

/-- The `SHADOW.delayFeedback` from the third unnamed preset module. -/
def shadowDelayFeedback : ℝ := 0.82

/-- The `MACROS.echo.params.echoFeedback` from the third unnamed preset module:
`m <= 0.5 ? (m / 0.5) * 0.4 : 0.4 + 0.35 * Math.pow((m - 0.5) / 0.5, 1.3)`. -/
noncomputable def echoFeedback (m : ℝ) : ℝ :=
  if m ≤ 0.5 then (m / 0.5) * 0.4
  else 0.4 + 0.35 * ((m - 0.5) / 0.5) ^ (1.3 : ℝ)

end GlassPreset

/-- Bound for the first branch of every feedback curve: for `0 ≤ m ≤ 0.5`
and `0 ≤ a`, `(m / 0.5) * a ≤ a`. -/
lemma half_branch_le (a m : ℝ) (ha : 0 ≤ a) (hm0 : 0 ≤ m) (hm : m ≤ 0.5) :
    (m / 0.5) * a ≤ a := by
  have h1 : m / 0.5 ≤ 1 := (div_le_one (by norm_num)).mpr hm
  calc (m / 0.5) * a ≤ 1 * a := mul_le_mul_of_nonneg_right h1 ha
    _ = a := one_mul a

/-- Bound for the second branch: for `0.5 < m ≤ 1`, the normalized upper-half
coordinate `(m - 0.5) / 0.5` raised to a nonnegative real power is at most 1. -/
lemma upper_pow_le_one (m e : ℝ) (hm : 0.5 < m) (hm1 : m ≤ 1) (he : 0 ≤ e) :
    ((m - 0.5) / 0.5) ^ e ≤ 1 := by
  have h0 : (0 : ℝ) ≤ (m - 0.5) / 0.5 := div_nonneg (by linarith) (by norm_num)
  have h1 : (m - 0.5) / 0.5 ≤ 1 := (div_le_one (by norm_num)).mpr (by linarith)
  exact Real.rpow_le_one h0 h1 he

/-- C1: feedback-loop safety across the whole macro domain.  For each of the
six preset modules that define an echo macro (`tuning.js`, `zodiac.js`,
`deep-space-oracle.js`, and the three unnamed preset modules), and for every
macro value `m ∈ [0,1]`, the loop gain `echoSatDrive * echoFeedback m` is
strictly below 1; the SHADOW chaos-mode `delayFeedback` target times
`echoSatDrive` is also strictly below 1. -/
theorem echo_loop_gain_safe (m : ℝ) (hm0 : 0 ≤ m) (hm1 : m ≤ 1) :
    (TuningPreset.echoSatDrive * TuningPreset.echoFeedback m < 1 ∧
      TuningPreset.echoSatDrive * TuningPreset.shadowDelayFeedback < 1) ∧
    (ZodiacPreset.echoSatDrive * ZodiacPreset.echoFeedback m < 1 ∧
      ZodiacPreset.echoSatDrive * ZodiacPreset.shadowDelayFeedback < 1) ∧
    (OraclePreset.echoSatDrive * OraclePreset.echoFeedback m < 1 ∧
      OraclePreset.echoSatDrive * OraclePreset.shadowDelayFeedback < 1) ∧
    (TapePreset.echoSatDrive * TapePreset.echoFeedback m < 1 ∧
      TapePreset.echoSatDrive * TapePreset.shadowDelayFeedback < 1) ∧
    (FurnacePreset.echoSatDrive * FurnacePreset.echoFeedback m < 1 ∧
      FurnacePreset.echoSatDrive * FurnacePreset.shadowDelayFeedback < 1) ∧
    (GlassPreset.echoSatDrive * GlassPreset.echoFeedback m < 1 ∧
      GlassPreset.echoSatDrive * GlassPreset.shadowDelayFeedback < 1) := by
  have hb : ∀ a b e : ℝ, 0 ≤ a → 0 ≤ b → 0 ≤ e →
      (if m ≤ 0.5 then (m / 0.5) * a else a + b * ((m - 0.5) / 0.5) ^ e) ≤ a + b := by
    intro a b e ha hbnn he
    split
    · have := half_branch_le a m ha hm0 (by assumption)
      linarith
    · have hm2 : 0.5 < m := by linarith [not_le.mp (by assumption : ¬ m ≤ 0.5)]
      have := upper_pow_le_one m e hm2 hm1 he
      nlinarith
  refine ⟨⟨?_, by norm_num [TuningPreset.echoSatDrive, TuningPreset.shadowDelayFeedback]⟩,
    ⟨?_, by norm_num [ZodiacPreset.echoSatDrive, ZodiacPreset.shadowDelayFeedback]⟩,
    ⟨?_, by norm_num [OraclePreset.echoSatDrive, OraclePreset.shadowDelayFeedback]⟩,
    ⟨?_, by norm_num [TapePreset.echoSatDrive, TapePreset.shadowDelayFeedback]⟩,
    ⟨?_, by norm_num [FurnacePreset.echoSatDrive, FurnacePreset.shadowDelayFeedback]⟩,
    ⟨?_, by norm_num [GlassPreset.echoSatDrive, GlassPreset.shadowDelayFeedback]⟩⟩
  · have h := hb 0.68 0.2 1 (by norm_num) (by norm_num) (by norm_num)
    rw [TuningPreset.echoSatDrive, TuningPreset.echoFeedback]
    nlinarith
  · have h := hb 0.62 0.23 1.3 (by norm_num) (by norm_num) (by norm_num)
    rw [ZodiacPreset.echoSatDrive, ZodiacPreset.echoFeedback]
    nlinarith
  · have h := hb 0.55 0.37 0.8 (by norm_num) (by norm_num) (by norm_num)
    rw [OraclePreset.echoSatDrive, OraclePreset.echoFeedback]
    nlinarith
  · have h : TapePreset.echoFeedback m ≤ 0.75 + 0.13 := by
      rw [TapePreset.echoFeedback]
      split
      · have := half_branch_le 0.75 m (by norm_num) hm0 (by assumption)
        linarith
      · have hm2 : 0.5 < m := by
          linarith [not_le.mp (by assumption : ¬ m ≤ 0.5)]
        have ht : (m - 0.5) / 0.5 ≤ 1 := (div_le_one (by norm_num)).mpr (by linarith)
        nlinarith
    rw [TapePreset.echoSatDrive]
    nlinarith
  · have h := hb 0.6 0.22 0.8 (by norm_num) (by norm_num) (by norm_num)
    rw [FurnacePreset.echoSatDrive, FurnacePreset.echoFeedback]
    nlinarith
  · have h := hb 0.4 0.35 1.3 (by norm_num) (by norm_num) (by norm_num)
    rw [GlassPreset.echoSatDrive, GlassPreset.echoFeedback]
    nlinarith

/-- Witness for `echo_loop_gain_safe` at the concrete macro value `m = 1`. -/
theorem echo_loop_gain_safe_witness :
    TuningPreset.echoSatDrive * TuningPreset.echoFeedback 1 < 1 :=
  (echo_loop_gain_safe 1 (by norm_num) (by norm_num)).1.1

/- ═══════════ Adaptive voicing compensation (App.js) ═══════════ -/

/-- The gain boost computed by `applyAdaptiveVoicing` in `src/App.js`:
`activeCount > 0 ? 5 * Math.log10(12 / Math.max(1, activeCount)) : 0`. -/
noncomputable def adaptiveVoicingBoost (activeCount : ℕ) : ℝ :=
  if 0 < activeCount then
    5 * Real.logb 10 (12 / max 1 (activeCount : ℝ))
  else 0

/-- Modelled from the spec contract of `AdaptiveVoicingCompensation`:
`gainOffsetDb(activeVoiceCount, totalVoiceCount)` is
`5 * log10(total / max(1, activeVoiceCount))` when `activeVoiceCount > 0`,
else `0`. -/
noncomputable def gainOffsetDb (activeCount totalCount : ℕ) : ℝ :=
  if 0 < activeCount then
    5 * Real.logb 10 ((totalCount : ℝ) / max 1 (activeCount : ℝ))
  else 0

/-- Sandwich a base-10 logarithm between rational bounds by comparing
integer powers: if `10 ^ a < x ^ n` and `x ^ n < 10 ^ b` then
`a / n < logb 10 x < b / n`. -/
lemma logb_ten_bounds (x : ℝ) (hx : 0 < x) (n a b : ℕ) (hn : 0 < n)
    (h1 : (10 : ℝ) ^ a < x ^ n) (h2 : x ^ n < (10 : ℝ) ^ b) :
    (a : ℝ) / n < Real.logb 10 x ∧ Real.logb 10 x < (b : ℝ) / n := by
  have hlog10 : (0 : ℝ) < Real.log 10 := Real.log_pos (by norm_num)
  have hxn : (0 : ℝ) < x ^ n := pow_pos hx n
  have hl1 : Real.log ((10 : ℝ) ^ a) < Real.log (x ^ n) :=
    Real.log_lt_log (pow_pos (by norm_num) a) h1
  have hl2 : Real.log (x ^ n) < Real.log ((10 : ℝ) ^ b) :=
    Real.log_lt_log hxn h2
  rw [Real.log_pow, Real.log_pow] at hl1 hl2
  have hnpos : (0 : ℝ) < (n : ℝ) := by exact_mod_cast hn
  constructor
  · rw [Real.logb, div_lt_div_iff (by exact_mod_cast hn) hlog10] at *
    nlinarith
  · rw [Real.logb, div_lt_div_iff hlog10 (by exact_mod_cast hn)] at *
    nlinarith

/-- The `0.301 < logb 10 2 < 0.302`, via `10^301 < 2^1000 < 10^302`. -/
lemma logb_two_bounds :
    (301 : ℝ) / 1000 < Real.logb 10 2 ∧ Real.logb 10 2 < (302 : ℝ) / 1000 := by
  have h := logb_ten_bounds 2 (by norm_num) 1000 301 302 (by norm_num)
    (by norm_num) (by norm_num)
  exact h

/-- The `0.602 < logb 10 4 < 0.603`, via `10^602 < 4^1000 < 10^603`. -/
lemma logb_four_bounds :
    (602 : ℝ) / 1000 < Real.logb 10 4 ∧ Real.logb 10 4 < (603 : ℝ) / 1000 := by
  have h := logb_ten_bounds 4 (by norm_num) 1000 602 603 (by norm_num)
    (by norm_num) (by norm_num)
  exact h

/-- The `1.079 < logb 10 12 < 1.080`, via `10^1079 < 12^1000 < 10^1080`. -/
lemma logb_twelve_bounds :
    (1079 : ℝ) / 1000 < Real.logb 10 12 ∧ Real.logb 10 12 < (1080 : ℝ) / 1000 := by
  have h := logb_ten_bounds 12 (by norm_num) 1000 1079 1080 (by norm_num)
    (by norm_num) (by norm_num)
  exact h

/-- C3: the adaptive-voicing boost of `src/App.js` coincides with the spec
formula `gainOffsetDb(active, 12) = 5 * log10(12 / max(1, active))` for
positive counts and `0` at zero; numerically it is `0` at 12 active voices,
within `0.01` of `1.5` at 6, within `0.02` of `3` at 3, within `0.05` of
`5.44` at 1, and `0` at 0. -/
theorem adaptive_voicing_matches_spec :
    (∀ n : ℕ, adaptiveVoicingBoost n = gainOffsetDb n 12) ∧
    adaptiveVoicingBoost 12 = 0 ∧
    |adaptiveVoicingBoost 6 - 1.5| < 0.01 ∧
    |adaptiveVoicingBoost 3 - 3| < 0.02 ∧
    |adaptiveVoicingBoost 1 - 5.44| < 0.05 ∧
    adaptiveVoicingBoost 0 = 0 := by
  have h2 := logb_two_bounds
  have h4 := logb_four_bounds
  have h12 := logb_twelve_bounds
  refine ⟨?_, ?_, ?_, ?_, ?_, ?_⟩
  · intro n
    rw [adaptiveVoicingBoost, gainOffsetDb]
    norm_num
  · rw [adaptiveVoicingBoost]
    norm_num
  · rw [adaptiveVoicingBoost]
    have : max (1 : ℝ) ((6 : ℕ) : ℝ) = 6 := by norm_num
    rw [if_pos (by norm_num), this]
    have h122 : (12 : ℝ) / 6 = 2 := by norm_num
    rw [h122, abs_lt]
    constructor <;> nlinarith [h2.1, h2.2]
  · rw [adaptiveVoicingBoost]
    have : max (1 : ℝ) ((3 : ℕ) : ℝ) = 3 := by norm_num
    rw [if_pos (by norm_num), this]
    have h124 : (12 : ℝ) / 3 = 4 := by norm_num
    rw [h124, abs_lt]
    constructor <;> nlinarith [h4.1, h4.2]
  · rw [adaptiveVoicingBoost]
    have : max (1 : ℝ) ((1 : ℕ) : ℝ) = 1 := by norm_num
    rw [if_pos (by norm_num), this]
    have h121 : (12 : ℝ) / 1 = 12 := by norm_num
    rw [h121, abs_lt]
    constructor <;> nlinarith [h12.1, h12.2]
  · rw [adaptiveVoicingBoost]
    norm_num

/- ═══════════ Knob definitions and randomize (tuning.js / App.js) ═══════════ -/

/-- Knob scale kinds from `KNOB_DEFS` in `src/tuning.js`. -/
inductive KnobScale where
  | linear
  | log
  | step
deriving DecidableEq, Repr

/-- One entry of `KNOB_DEFS` in `src/tuning.js`:
`{ label, group, min, max, default, scale, unit }`. -/
structure KnobDef where
  name : String
  label : String
  group : String
  min : ℚ
  max : ℚ
  dflt : ℚ
  scale : KnobScale
  unit : String
deriving DecidableEq, Repr

/-- The 35 knob definitions of `KNOB_DEFS` in `src/tuning.js` (defaults are
the `TUNING` values the source references). -/
def KNOB_DEFS : List KnobDef := [
  ⟨"attack", "ATK", "envelope", 0.01, 10, 1.5, .log, "s"⟩,
  ⟨"decay", "DEC", "envelope", 0.1, 10, 3.0, .log, "s"⟩,
  ⟨"sustain", "SUS", "envelope", 0, 1, 0.35, .linear, "%"⟩,
  ⟨"release", "REL", "envelope", 0.1, 14, 5.0, .log, "s"⟩,
  ⟨"eqLow", "LOW", "eq", -20, 20, 4, .linear, "dB"⟩,
  ⟨"eqMid", "MID", "eq", -20, 20, 2, .linear, "dB"⟩,
  ⟨"eqHigh", "HIGH", "eq", -20, 20, -3, .linear, "dB"⟩,
  ⟨"eqHighFreq", "HI x", "eq", 1000, 8000, 4500, .log, "Hz"⟩,
  ⟨"chebyOrder", "ORD", "chebyshev", 1, 11, 3, .step, ""⟩,
  ⟨"chebyWet", "MIX", "chebyshev", 0, 1, 0.5, .linear, "%"⟩,
  ⟨"distortion", "DRIV", "distortion", 0, 1, 0.35, .linear, "%"⟩,
  ⟨"distortionWet", "MIX", "distortion", 0, 1, 0.0, .linear, "%"⟩,
  ⟨"vibratoFreq", "RATE", "vibrato", 0.01, 5, 0.12, .log, "Hz"⟩,
  ⟨"vibratoDepth", "DPTH", "vibrato", 0, 1, 0.22, .linear, "%"⟩,
  ⟨"vibratoWet", "MIX", "vibrato", 0, 1, 0.6, .linear, "%"⟩,
  ⟨"delayTime", "TIME", "echo", 0.05, 2, 0.65, .log, "s"⟩,
  ⟨"delayFeedback", "FDBK", "echo", 0, 0.95, 0.42, .linear, "%"⟩,
  ⟨"delayWet", "MIX", "echo", 0, 1, 0.28, .linear, "%"⟩,
  ⟨"echoFilterFreq", "FILT", "echo", 500, 8000, 3500, .log, "Hz"⟩,
  ⟨"reverbRoom", "ROOM", "reverb", 0, 1, 0.9, .linear, "%"⟩,
  ⟨"reverbDamp", "DAMP", "reverb", 200, 8000, 1800, .log, "Hz"⟩,
  ⟨"reverbWet", "MIX", "reverb", 0, 1, 0.42, .linear, "%"⟩,
  ⟨"dampSweepRate", "MOD", "reverb", 0.01, 2, 0.05, .log, "Hz"⟩,
  ⟨"dampSweepDepth", "AMT", "reverb", 0, 1, 0.12, .linear, "%"⟩,
  ⟨"chorusFreq", "RATE", "chorus", 0.1, 10, 0.8, .log, "Hz"⟩,
  ⟨"chorusDelay", "DLY", "chorus", 1, 30, 12, .linear, "ms"⟩,
  ⟨"chorusDepth", "DPTH", "chorus", 0, 1, 0.6, .linear, "%"⟩,
  ⟨"chorusWet", "MIX", "chorus", 0, 1, 0.0, .linear, "%"⟩,
  ⟨"phaserFreq", "RATE", "phaser", 0.05, 10, 0.3, .log, "Hz"⟩,
  ⟨"phaserOctaves", "OCT", "phaser", 1, 8, 3, .step, ""⟩,
  ⟨"phaserBase", "BASE", "phaser", 50, 2000, 350, .log, "Hz"⟩,
  ⟨"phaserQ", "Q", "phaser", 0.5, 20, 8, .log, ""⟩,
  ⟨"phaserWet", "MIX", "phaser", 0, 1, 0.0, .linear, "%"⟩,
  ⟨"panLfoFreq", "RATE", "pan", 0.01, 2, 0.04, .log, "Hz"⟩,
  ⟨"panLfoAmplitude", "WDTH", "pan", 0, 1, 0.18, .linear, "%"⟩]

/-- The `logMap(min, max).mapFromNorm` from `src/App.js`:
`(n) => min * Math.pow(max / min, n)`. -/
noncomputable def logMapFromNorm (lo hi : ℚ) (n : ℝ) : ℝ :=
  (lo : ℝ) * ((hi : ℝ) / (lo : ℝ)) ^ n

/-- The `stepMap(min, max).mapFromNorm` from `src/App.js`:
`(n) => Math.round(min + n * (max - min))`. -/
noncomputable def stepMapFromNorm (lo hi : ℚ) (n : ℝ) : ℝ :=
  ((round ((lo : ℝ) + n * ((hi : ℝ) - (lo : ℝ))) : ℤ) : ℝ)

/-- The value `randomizeParams` in `src/App.js` assigns to a knob from a
normalized draw `norm`: `logMap` for log knobs, `stepMap` for step knobs,
otherwise `def.min + norm * (def.max - def.min)`. -/
noncomputable def randomizeValue (d : KnobDef) (norm : ℝ) : ℝ :=
  match d.scale with
  | .log => logMapFromNorm d.min d.max norm
  | .step => stepMapFromNorm d.min d.max norm
  | .linear => (d.min : ℝ) + norm * ((d.max : ℝ) - (d.min : ℝ))

/-- Well-formedness of a knob definition, checked per scale: log knobs have
`0 < min ≤ max`, step knobs have integral `min ≤ max`, linear knobs have
`min ≤ max`. -/
def knobWF (d : KnobDef) : Bool :=
  match d.scale with
  | .log => decide (0 < d.min ∧ d.min ≤ d.max)
  | .step => decide (d.min.den = 1 ∧ d.max.den = 1 ∧ d.min ≤ d.max)
  | .linear => decide (d.min ≤ d.max)

lemma knob_defs_wf : ∀ d ∈ KNOB_DEFS, knobWF d = true := by
  intro d hd
  fin_cases hd <;> simp only [knobWF, decide_eq_true_eq] <;> norm_num

/-- Range of the linear branch. -/
lemma linear_range (lo hi n : ℝ) (hle : lo ≤ hi) (h0 : 0 ≤ n) (h1 : n ≤ 1) :
    lo ≤ lo + n * (hi - lo) ∧ lo + n * (hi - lo) ≤ hi := by
  constructor <;> nlinarith

/-- Range of the log branch: for `0 < lo ≤ hi` and `n ∈ [0,1]`,
`lo * (hi / lo) ^ n ∈ [lo, hi]`. -/
lemma log_range (lo hi : ℚ) (n : ℝ) (hlo : 0 < lo) (hle : lo ≤ hi)
    (h0 : 0 ≤ n) (h1 : n ≤ 1) :
    (lo : ℝ) ≤ logMapFromNorm lo hi n ∧ logMapFromNorm lo hi n ≤ (hi : ℝ) := by
  have hloR : (0 : ℝ) < (lo : ℝ) := by exact_mod_cast hlo
  have hleR : (lo : ℝ) ≤ (hi : ℝ) := by exact_mod_cast hle
  have hr1 : (1 : ℝ) ≤ (hi : ℝ) / (lo : ℝ) := (one_le_div hloR).mpr hleR
  have hlow : ((hi : ℝ) / (lo : ℝ)) ^ (0 : ℝ) ≤ ((hi : ℝ) / (lo : ℝ)) ^ n :=
    Real.rpow_le_rpow_of_exponent_le hr1 h0
  have hhigh : ((hi : ℝ) / (lo : ℝ)) ^ n ≤ ((hi : ℝ) / (lo : ℝ)) ^ (1 : ℝ) :=
    Real.rpow_le_rpow_of_exponent_le hr1 h1
  rw [Real.rpow_zero] at hlow
  rw [Real.rpow_one] at hhigh
  constructor
  · rw [logMapFromNorm]
    nlinarith
  · rw [logMapFromNorm]
    have : (lo : ℝ) * ((hi : ℝ) / (lo : ℝ)) = (hi : ℝ) := by
      field_simp
    nlinarith
/-- Range and integrality of the step branch, for integral bounds. -/
lemma step_range (lo hi : ℚ) (n : ℝ) (hld : lo.den = 1) (hhd : hi.den = 1)
    (hle : lo ≤ hi) (h0 : 0 ≤ n) (h1 : n ≤ 1) :
    (lo : ℝ) ≤ stepMapFromNorm lo hi n ∧ stepMapFromNorm lo hi n ≤ (hi : ℝ) ∧
      ∃ k : ℤ, stepMapFromNorm lo hi n = (k : ℝ) := by
  have hleR : (lo : ℝ) ≤ (hi : ℝ) := by exact_mod_cast hle
  have hx : (lo : ℝ) ≤ (lo : ℝ) + n * ((hi : ℝ) - (lo : ℝ)) ∧
      (lo : ℝ) + n * ((hi : ℝ) - (lo : ℝ)) ≤ (hi : ℝ) :=
    linear_range (lo : ℝ) (hi : ℝ) n hleR h0 h1
  have hloZ : ((lo.num : ℤ) : ℝ) = (lo : ℝ) := by
    exact_mod_cast congrArg (fun q : ℚ => (q : ℝ)) (Rat.coe_int_num_of_den_eq_one hld)
  have hhiZ : ((hi.num : ℤ) : ℝ) = (hi : ℝ) := by
    exact_mod_cast congrArg (fun q : ℚ => (q : ℝ)) (Rat.coe_int_num_of_den_eq_one hhd)
  set x : ℝ := (lo : ℝ) + n * ((hi : ℝ) - (lo : ℝ)) with hxdef
  have hlo2 : lo.num ≤ round x := by
    rw [round_eq, Int.le_floor]
    push_cast
    rw [hloZ]
    linarith [hx.1]
  have hhi2 : round x ≤ hi.num := by
    rw [round_eq]
    have hstep : x + 1 / 2 ≤ (hi : ℝ) + 1 / 2 := by linarith [hx.2]
    have hfl : ⌊x + 1 / 2⌋ ≤ ⌊(hi : ℝ) + 1 / 2⌋ := Int.floor_le_floor hstep
    have : ⌊(hi : ℝ) + 1 / 2⌋ = hi.num := by
      rw [← hhiZ, Int.floor_int_add]
      norm_num
    omega
  refine ⟨?_, ?_, ⟨round x, rfl⟩⟩
  · rw [stepMapFromNorm, ← hxdef, ← hloZ]
    exact_mod_cast hlo2
  · rw [stepMapFromNorm, ← hxdef, ← hhiZ]
    exact_mod_cast hhi2

/-- C9: every value `randomizeParams` can produce lies within the knob's
declared `[min, max]` interval — `min * (max/min)^n` for log knobs,
`round(min + n*(max-min))` (an integer) for step knobs, and
`min + n*(max-min)` for linear knobs — for every normalized draw
`n ∈ [0,1]` and every knob of `KNOB_DEFS`. -/
theorem randomize_in_range (d : KnobDef) (hd : d ∈ KNOB_DEFS) (n : ℝ)
    (h0 : 0 ≤ n) (h1 : n ≤ 1) :
    (d.min : ℝ) ≤ randomizeValue d n ∧ randomizeValue d n ≤ (d.max : ℝ) ∧
      (d.scale = .step → ∃ k : ℤ, randomizeValue d n = (k : ℝ)) := by
  have hwf := knob_defs_wf d hd
  rw [knobWF] at hwf
  rw [randomizeValue]
  cases hs : d.scale
  · rw [hs] at hwf
    simp only [decide_eq_true_eq] at hwf
    have h := linear_range (d.min : ℝ) (d.max : ℝ) n (by exact_mod_cast hwf) h0 h1
    exact ⟨h.1, h.2, fun hc => nomatch hc⟩
  · rw [hs] at hwf
    simp only [decide_eq_true_eq] at hwf
    have h := log_range d.min d.max n hwf.1 hwf.2 h0 h1
    exact ⟨h.1, h.2, fun hc => nomatch hc⟩
  · rw [hs] at hwf
    simp only [decide_eq_true_eq] at hwf
    have h := step_range d.min d.max n hwf.1 hwf.2.1 hwf.2.2 h0 h1
    exact ⟨h.1, h.2.1, fun _ => h.2.2⟩

/-- Witness for `randomize_in_range`: the `chebyOrder` step knob at the
concrete draw `n = 1/2` stays within `[1, 11]` and is an integer. -/
theorem randomize_in_range_witness :
    ((⟨"chebyOrder", "ORD", "chebyshev", 1, 11, 3, .step, ""⟩ : KnobDef).min : ℝ) ≤
        randomizeValue ⟨"chebyOrder", "ORD", "chebyshev", 1, 11, 3, .step, ""⟩ (1 / 2) ∧
      randomizeValue ⟨"chebyOrder", "ORD", "chebyshev", 1, 11, 3, .step, ""⟩ (1 / 2) ≤
        ((⟨"chebyOrder", "ORD", "chebyshev", 1, 11, 3, .step, ""⟩ : KnobDef).max : ℝ) ∧
      ((⟨"chebyOrder", "ORD", "chebyshev", 1, 11, 3, .step, ""⟩ : KnobDef).scale = .step →
        ∃ k : ℤ, randomizeValue ⟨"chebyOrder", "ORD", "chebyshev", 1, 11, 3, .step, ""⟩ (1 / 2) = (k : ℝ)) :=
  randomize_in_range ⟨"chebyOrder", "ORD", "chebyshev", 1, 11, 3, .step, ""⟩
    (by decide) (1 / 2) (by norm_num) (by norm_num)

/- ═══════════ Damp sweep periodic process (createEngine, App.js) ═══════════ -/

/-- Mutable fields of the `dampSweep` object in `createEngine`
(`rate`, `depth`, `center`, `_phase`). -/
structure DampSweep where
  rate : ℝ
  depth : ℝ
  center : ℝ
  phase : ℝ

/-- One tick of the `dampSweep` scheduled callback in `src/App.js`.  Returns
the updated state and the dampening value written to the reverb, if any:
the callback returns immediately when `depth <= 0`; otherwise it advances
the phase (wrapping at `2π`), computes
`val = exp(log(center) + sin(phase) * depth * 2.5)` and writes
`Math.max(200, Math.min(8000, val))`. -/
noncomputable def dampSweepTick (s : DampSweep) : DampSweep × Option ℝ :=
  if s.depth ≤ 0 then (s, none)
  else
    let phase1 := s.phase + 2 * Real.pi * s.rate * 0.05
    let phase2 := if 2 * Real.pi < phase1 then phase1 - 2 * Real.pi else phase1
    let md := Real.sin phase2
    let logCenter := Real.log s.center
    let logRange := s.depth * 2.5
    let val := Real.exp (logCenter + md * logRange)
    ({ s with phase := phase2 }, some (max 200 (min 8000 val)))

/-- C10: every dampening value the damp-sweep process writes lies in
`[200, 8000]`, whatever its `rate`, `depth` and `center` fields hold, and
a tick with `depth ≤ 0` writes nothing. -/
theorem damp_sweep_clamped (s : DampSweep) :
    (∀ v : ℝ, (dampSweepTick s).2 = some v → 200 ≤ v ∧ v ≤ 8000) ∧
    (s.depth ≤ 0 → (dampSweepTick s).2 = none) := by
  rw [dampSweepTick]
  by_cases h : s.depth ≤ 0
  · rw [if_pos h]
    exact ⟨fun v hv => Option.noConfusion hv, fun _ => rfl⟩
  · rw [if_neg h]
    refine ⟨fun v hv => ?_, fun hc => absurd hc h⟩
    simp only [Option.some_inj] at hv
    subst hv
    constructor
    · exact le_max_left _ _
    · exact max_le (by norm_num) (le_trans (min_le_left _ _) (by norm_num))

/-- Witness for `damp_sweep_clamped`: a tick at the concrete state with
`depth = 0` (rate 0.05, center 1800, phase 0) writes nothing. -/
theorem damp_sweep_clamped_witness :
    (dampSweepTick ⟨0.05, 0, 1800, 0⟩).2 = none :=
  (damp_sweep_clamped ⟨0.05, 0, 1800, 0⟩).2 (by norm_num)

/- ═══════════ Chain builder (wireChain, App.js) ═══════════ -/

/-- Endpoints of the audio graph wired by `wireChain` / `createEngine`:
named nodes from the chain registry, the two inputs of the echo crossfade
(`echoCrossfade.a` / `echoCrossfade.b`), and the destination. -/
inductive AudioNode where
  | reg (name : String)
  | cfA
  | cfB
  | dest
deriving DecidableEq, Repr

/-- A bypass entry `{ after, before }` of a `ChainConfig`. -/
structure BypassCfg where
  after : String
  before : String
deriving DecidableEq, Repr

/-- A chain config from `CHAINS` in `src/tuning.js`: the `order` array and
the `bypass` map (modelled as an association list). -/
structure ChainConfig where
  order : List String
  bypass : List (String × BypassCfg)
deriving DecidableEq, Repr

/-- The `connect` on the audio graph.  WebAudio keeps one connection per
(source, destination) pair, so connecting an already-present edge is a
no-op. -/
def addEdge (es : List (AudioNode × AudioNode)) (e : AudioNode × AudioNode) :
    List (AudioNode × AudioNode) :=
  if e ∈ es then es else es ++ [e]

/-- One step of the `for (const name of order)` loop in `wireChain`
(`src/App.js`): the `"ECHO"` sentinel splices the echo junction
(`prev → echoCrossfade.a`, `prev → echoInputGain`,
`echoInputGain → echoDelay`, `echoDelay → echoCrossfade.b`) and makes the
crossfade the new `prev`; any other name is connected in sequence. -/
def wireChainStep (acc : AudioNode × List (AudioNode × AudioNode))
    (name : String) : AudioNode × List (AudioNode × AudioNode) :=
  if name = "ECHO" then
    (.reg "echoCrossfade",
      addEdge (addEdge (addEdge (addEdge acc.2 (acc.1, .cfA))
        (acc.1, .reg "echoInputGain"))
        (.reg "echoInputGain", .reg "echoDelay"))
        (.reg "echoDelay", .cfB))
  else
    (.reg name, addEdge acc.2 (acc.1, .reg name))

/-- Result of `wireChain`: the wired edges (including the final connection
to the destination), the `bypassState` map and the `bypassable` table. -/
structure WireResult where
  edges : List (AudioNode × AudioNode)
  bypassState : List (String × Bool)
  bypassable : List (String × AudioNode × AudioNode)
deriving DecidableEq, Repr

/-- The `wireChain(src, nodes, config)` from `src/App.js`: walk `config.order`
(expanding the sentinel), connect the final `prev` to the destination, then
record every `bypass` entry as initially bypassed with its `after`/`before`
neighbours.  The source performs no validation of the config. -/
def wireChain (src : AudioNode) (config : ChainConfig) : WireResult :=
  let walk := config.order.foldl wireChainStep (src, [])
  { edges := addEdge walk.2 (walk.1, .dest)
    bypassState := config.bypass.map (fun p => (p.1, true))
    bypassable := config.bypass.map
      (fun p => (p.1, (.reg p.2.after, .reg p.2.before))) }

/-- Modelled from the spec: the §4.3 description of the chain walk.  For the
sentinel, the running current connects to the crossfade dry input and to the
input-attenuator feeding the delay line whose output goes to the crossfade
wet input, and the crossfade becomes the new current; any other entry is
connected in sequence. -/
def specChainWalk : AudioNode → List String → AudioNode × List (AudioNode × AudioNode)
  | cur, [] => (cur, [])
  | cur, name :: rest =>
    if name = "ECHO" then
      let next := specChainWalk (.reg "echoCrossfade") rest
      (next.1,
        (cur, .cfA) :: (cur, .reg "echoInputGain") ::
        (.reg "echoInputGain", .reg "echoDelay") ::
        (.reg "echoDelay", .cfB) :: next.2)
    else
      let next := specChainWalk (.reg name) rest
      (next.1, (cur, .reg name) :: next.2)

/-- The echo feedback loop wired in `createEngine` (`src/App.js`):
`echoDelay → echoFilter → echoSat → echoFeedbackGain → echoDelay`. -/
def engineEchoLoopEdges : List (AudioNode × AudioNode) :=
  [(.reg "echoDelay", .reg "echoFilter"),
   (.reg "echoFilter", .reg "echoSat"),
   (.reg "echoSat", .reg "echoFeedbackGain"),
   (.reg "echoFeedbackGain", .reg "echoDelay")]

/-- The full engine graph: `createEngine` wires the echo feedback loop and
then calls `wireChain` on the active chain config. -/
def engineGraphEdges (config : ChainConfig) : List (AudioNode × AudioNode) :=
  engineEchoLoopEdges ++ (wireChain (.reg "highpass") config).edges

lemma mem_addEdge (es : List (AudioNode × AudioNode))
    (x e : AudioNode × AudioNode) : e ∈ addEdge es x ↔ e ∈ es ∨ e = x := by
  rw [addEdge]
  split
  · constructor
    · exact fun h => Or.inl h
    · rintro (h | h)
      · exact h
      · rwa [h]
  · simp [List.mem_append]

/-- The `wireChain` walk agrees with the spec walk: same final current node,
and an edge is produced iff the spec walk lists it (on top of edges already
present). -/
lemma wire_walk_agrees (order : List String) :
    ∀ (cur : AudioNode) (es : List (AudioNode × AudioNode)),
      (order.foldl wireChainStep (cur, es)).1 = (specChainWalk cur order).1 ∧
      ∀ e, e ∈ (order.foldl wireChainStep (cur, es)).2 ↔
        e ∈ es ∨ e ∈ (specChainWalk cur order).2 := by
  induction order with
  | nil =>
    intro cur es
    exact ⟨rfl, fun e => by simp [specChainWalk]⟩
  | cons name rest ih =>
    intro cur es
    rw [List.foldl_cons, specChainWalk]
    by_cases hn : name = "ECHO"
    · rw [wireChainStep, if_pos hn, if_pos hn]
      have h := ih (.reg "echoCrossfade")
        (addEdge (addEdge (addEdge (addEdge es (cur, .cfA))
          (cur, .reg "echoInputGain"))
          (.reg "echoInputGain", .reg "echoDelay"))
          (.reg "echoDelay", .cfB))
      refine ⟨h.1, fun e => ?_⟩
      rw [h.2 e, mem_addEdge, mem_addEdge, mem_addEdge, mem_addEdge]
      simp only [List.mem_cons]
      tauto
    · rw [wireChainStep, if_neg hn, if_neg hn]
      have h := ih (.reg name) (addEdge es (cur, .reg name))
      refine ⟨h.1, fun e => ?_⟩
      rw [h.2 e, mem_addEdge]
      simp only [List.mem_cons]
      tauto

/-- C8: `wireChain` implements the documented walk.  For every config, the
edge set it wires is exactly the spec-walk edge set (sentinel expands to the
dry-input connection, the input-gain/delay branch and the crossfade wet
input; other entries connect in sequence) plus the final connection of the
last current node to the destination; and the engine graph also carries the
echo feedback-loop return `delay → filter → saturator → gain → delay`
feeding the delay whose output reaches the crossfade wet input. -/
theorem wire_chain_matches_spec (config : ChainConfig)
    (e : AudioNode × AudioNode) :
    (e ∈ (wireChain (.reg "highpass") config).edges ↔
      e ∈ (specChainWalk (.reg "highpass") config.order).2 ∨
      e = ((specChainWalk (.reg "highpass") config.order).1, .dest)) ∧
    (e ∈ engineEchoLoopEdges → e ∈ engineGraphEdges config) := by
  have h := wire_walk_agrees config.order (.reg "highpass") []
  constructor
  · rw [wireChain]
    simp only
    rw [mem_addEdge, h.2 e, h.1]
    simp
  · intro hmem
    rw [engineGraphEdges, List.mem_append]
    exact Or.inl hmem

/-- Witness for `wire_chain_matches_spec` at the zodiac chain config: the
final `softClip → destination` edge is wired. -/
theorem wire_chain_matches_spec_witness :
    (AudioNode.reg "softClip", AudioNode.dest) ∈
      (wireChain (.reg "highpass")
        ⟨["vibrato", "ECHO", "eq3", "chebyshev", "reverb", "chorus",
          "monitorEQ", "softClip"],
         [("distortion", ⟨"chebyshev", "reverb"⟩),
          ("phaser", ⟨"chorus", "monitorEQ"⟩)]⟩).edges :=
  ((wire_chain_matches_spec
      ⟨["vibrato", "ECHO", "eq3", "chebyshev", "reverb", "chorus",
        "monitorEQ", "softClip"],
       [("distortion", ⟨"chebyshev", "reverb"⟩),
        ("phaser", ⟨"chorus", "monitorEQ"⟩)]⟩
      (AudioNode.reg "softClip", AudioNode.dest)).1).mpr (by decide)

/-- C2 counterexample: `wireChain` silently wires malformed configs instead
of failing fast.  On a config with the `"ECHO"` sentinel twice it returns a
complete `WireResult` (the junction is spliced a second time from the
crossfade itself), and on a config whose bypass node `"distortion"` also
appears in `order` it returns a complete `WireResult` wiring the node inline
while simultaneously recording it as bypassed — no validation error exists
in the code. -/
theorem wire_chain_accepts_malformed :
    wireChain (.reg "highpass") ⟨["ECHO", "ECHO"], []⟩ =
      ⟨[(.reg "highpass", .cfA), (.reg "highpass", .reg "echoInputGain"),
        (.reg "echoInputGain", .reg "echoDelay"), (.reg "echoDelay", .cfB),
        (.reg "echoCrossfade", .cfA),
        (.reg "echoCrossfade", .reg "echoInputGain"),
        (.reg "echoCrossfade", .dest)], [], []⟩ ∧
    wireChain (.reg "highpass")
        ⟨["vibrato", "distortion", "reverb"],
         [("distortion", ⟨"vibrato", "reverb"⟩)]⟩ =
      ⟨[(.reg "highpass", .reg "vibrato"),
        (.reg "vibrato", .reg "distortion"),
        (.reg "distortion", .reg "reverb"), (.reg "reverb", .dest)],
       [("distortion", true)],
       [("distortion", .reg "vibrato", .reg "reverb")]⟩ := by
  constructor <;> rfl

/-- C2 amended: `wireChain` performs no config validation.  With the
sentinel duplicated it wires the echo junction again from the crossfade
(including a crossfade-to-own-dry-input edge) and still connects to the
destination; with a bypass node duplicated in `order` the node is wired into
the path, is also marked bypassed, and the direct `after → before` edge the
bypass protocol assumes is absent from the wired graph. -/
theorem wire_chain_malformed_silently_wired :
    ((.reg "echoCrossfade", .cfA) ∈
        (wireChain (.reg "highpass") ⟨["ECHO", "ECHO"], []⟩).edges ∧
      (.reg "echoCrossfade", .dest) ∈
        (wireChain (.reg "highpass") ⟨["ECHO", "ECHO"], []⟩).edges) ∧
    ((.reg "vibrato", .reg "distortion") ∈
        (wireChain (.reg "highpass")
          ⟨["vibrato", "distortion", "reverb"],
           [("distortion", ⟨"vibrato", "reverb"⟩)]⟩).edges ∧
      ("distortion", true) ∈
        (wireChain (.reg "highpass")
          ⟨["vibrato", "distortion", "reverb"],
           [("distortion", ⟨"vibrato", "reverb"⟩)]⟩).bypassState ∧
      (.reg "vibrato", .reg "reverb") ∉
        (wireChain (.reg "highpass")
          ⟨["vibrato", "distortion", "reverb"],
           [("distortion", ⟨"vibrato", "reverb"⟩)]⟩).edges) := by
  refine ⟨⟨?_, ?_⟩, ?_, ?_, ?_⟩ <;> decide

/- ═══════════ Bypass controller (setBypass, App.js) ═══════════ -/

/-- A `bypassable[name]` record built by `wireChain`: the node, its `after`
neighbour (`b.prev`), its `before` neighbour (`b.next`), whether the node
exposes a `wet` control, and the `wet.value` read by the un-bypass ramp. -/
structure BypassEntry where
  node : String
  prev : String
  next : String
  hasWet : Bool
  wetValue : ℚ
deriving DecidableEq, Repr

/-- A topology swap scheduled by the `setTimeout` in the ramp-down branch of
`setBypass`. -/
structure PendingSwap where
  prev : String
  node : String
  next : String
deriving DecidableEq, Repr

/-- Engine state touched by `setBypass`: graph edges, `bypassState` flags,
the `bypassable` table, scheduled ramp-down swaps, and the log of
`wet.rampTo` calls issued. -/
structure BypassSt where
  edges : List (String × String)
  bypassState : List (String × Bool)
  bypassable : List (String × BypassEntry)
  pending : List PendingSwap
  rampLog : List (String × ℚ)
deriving DecidableEq, Repr

/-- Association-list lookup (JS object property read). -/
def lookupA {α : Type} : List (String × α) → String → Option α
  | [], _ => none
  | (k, v) :: rest, key => if k = key then some v else lookupA rest key

/-- Association-list update of an existing key (JS object property write). -/
def updateA {α : Type} : List (String × α) → String → α → List (String × α)
  | [], _, _ => []
  | (k, v) :: rest, key, x =>
    if k = key then (k, x) :: rest else (k, v) :: updateA rest key x

/-- Primitive effects performed inside the `try` block of `setBypass`. -/
inductive BypassOp where
  | conn (a b : String)
  | disc (a b : String)
  | ramp (node : String) (v : ℚ)
  | sched (p : PendingSwap)
  | setBS (name : String) (b : Bool)
deriving DecidableEq, Repr

/-- Run a sequence of primitive operations inside one `try` block.
`disconnect` of an edge that is not connected throws, aborting the remaining
operations; the surrounding `catch` swallows the error.  `connect` of an
already-connected pair is a no-op; ramps, timeouts and flag writes always
succeed. -/
def runOps : List BypassOp → BypassSt → BypassSt
  | [], st => st
  | .conn a b :: rest, st =>
    runOps rest { st with edges :=
      if (a, b) ∈ st.edges then st.edges else st.edges ++ [(a, b)] }
  | .disc a b :: rest, st =>
    if (a, b) ∈ st.edges then
      runOps rest { st with edges := st.edges.erase (a, b) }
    else st
  | .ramp n v :: rest, st => runOps rest { st with rampLog := st.rampLog ++ [(n, v)] }
  | .sched p :: rest, st => runOps rest { st with pending := st.pending ++ [p] }
  | .setBS n b :: rest, st =>
    runOps rest { st with bypassState := updateA st.bypassState n b }

/-- The `setBypass(name, bypassed)` from `src/App.js`.  Guard: no-op when
`bypassState[name] === bypassed`.  Bypassing a node with a `wet` control
ramps the wet to 0 and schedules the topology swap on a timeout; without a
`wet` control it swaps immediately.  Un-bypassing disconnects
`prev → next`, splices the node in and ramps its wet to
`wet.value || 1`.  The whole body sits in a `try` whose `catch` ignores
errors; a missing `bypassable[name]` record throws on field access and is
likewise swallowed. -/
def setBypass (st : BypassSt) (name : String) (bypassed : Bool) : BypassSt :=
  match lookupA st.bypassState name with
  | none => st
  | some cur =>
    if cur = bypassed then st
    else
      match lookupA st.bypassable name with
      | none => st
      | some e =>
        if bypassed then
          if e.hasWet then
            runOps [.ramp e.node 0, .sched ⟨e.prev, e.node, e.next⟩,
              .setBS name true] st
          else
            runOps [.disc e.prev e.node, .disc e.node e.next,
              .conn e.prev e.next, .setBS name true] st
        else
          runOps ([.disc e.prev e.next, .conn e.prev e.node,
            .conn e.node e.next] ++
            (if e.hasWet then
              [.ramp e.node (if e.wetValue = 0 then 1 else e.wetValue)]
            else []) ++ [.setBS name false]) st

/-- Fire the oldest scheduled ramp-down swap (the timeout body carries its
own `try` that ignores disconnect failures). -/
def firePending (st : BypassSt) : BypassSt :=
  match st.pending with
  | [] => st
  | p :: rest =>
    runOps [.disc p.prev p.node, .disc p.node p.next, .conn p.prev p.next]
      { st with pending := rest }

lemma lookupA_updateA_self {α : Type} (l : List (String × α)) (k : String)
    (w v : α) (h : lookupA l k = some w) :
    lookupA (updateA l k v) k = some v := by
  induction l with
  | nil => cases h
  | cons p rest ih =>
    obtain ⟨pk, pv⟩ := p
    by_cases hk : pk = k
    · rw [updateA, if_pos hk, lookupA, if_pos hk]
    · rw [lookupA, if_neg hk] at h
      rw [updateA, if_neg hk, lookupA, if_neg hk]
      exact ih h

lemma updateA_updateA {α : Type} (l : List (String × α)) (k : String) (a b : α) :
    updateA (updateA l k a) k b = updateA l k b := by
  induction l with
  | nil => rfl
  | cons p rest ih =>
    obtain ⟨pk, pv⟩ := p
    by_cases hk : pk = k
    · rw [updateA, if_pos hk, updateA, if_pos hk, updateA, if_pos hk]
    · rw [updateA, if_neg hk, updateA, if_neg hk, updateA, if_neg hk, ih]

lemma updateA_eq_self {α : Type} (l : List (String × α)) (k : String) (v : α)
    (h : lookupA l k = some v) : updateA l k v = l := by
  induction l with
  | nil => rfl
  | cons p rest ih =>
    obtain ⟨pk, pv⟩ := p
    by_cases hk : pk = k
    · rw [lookupA, if_pos hk] at h
      rw [updateA, if_pos hk]
      cases h
      rw [hk]
    · rw [lookupA, if_neg hk] at h
      rw [updateA, if_neg hk, ih h]

/-- The `setBypass` is a no-op when the node is already in the requested state. -/
lemma setBypass_noop (st : BypassSt) (name : String) (b : Bool)
    (h : lookupA st.bypassState name = some b) : setBypass st name b = st := by
  simp [setBypass, h]

/-- Effect of an un-bypass call from a clean bypassed state: the
`prev → next` edge is replaced by `prev → node → next`, the flag flips, and
the wet ramp is logged. -/
lemma setBypass_unbypass_clean (st : BypassSt) (name : String) (e : BypassEntry)
    (hbs : lookupA st.bypassState name = some true)
    (hbe : lookupA st.bypassable name = some e)
    (hPX : (e.prev, e.next) ∈ st.edges)
    (hPN : (e.prev, e.node) ∉ st.edges)
    (hNX : (e.node, e.next) ∉ st.edges)
    (hPneqN : e.prev ≠ e.node) :
    setBypass st name false =
      { st with
        edges := st.edges.erase (e.prev, e.next) ++
          [(e.prev, e.node), (e.node, e.next)],
        bypassState := updateA st.bypassState name false,
        rampLog := st.rampLog ++
          (if e.hasWet then
            [(e.node, if e.wetValue = 0 then 1 else e.wetValue)]
          else []) } := by
  have hPN2 : (e.prev, e.node) ∉ st.edges.erase (e.prev, e.next) :=
    fun h => hPN (List.mem_of_mem_erase h)
  have hNX2 : (e.node, e.next) ∉
      st.edges.erase (e.prev, e.next) ++ [(e.prev, e.node)] := by
    intro h
    rcases List.mem_append.mp h with h | h
    · exact hNX (List.mem_of_mem_erase h)
    · rw [List.mem_singleton] at h
      have : e.node = e.prev := congrArg Prod.fst h
      exact hPneqN this.symm
  cases hw : e.hasWet
  · simp [setBypass, hbs, hbe, runOps, hPX, hPN2, hNX2, hw]
  · simp [setBypass, hbs, hbe, runOps, hPX, hPN2, hNX2, hw]

/-- Effect of a bypass call on a node with a `wet` control: ramp the wet to
0, schedule the swap, flip the flag — the topology is untouched for now. -/
lemma setBypass_bypass_wet (st : BypassSt) (name : String) (e : BypassEntry)
    (hbs : lookupA st.bypassState name = some false)
    (hbe : lookupA st.bypassable name = some e)
    (hw : e.hasWet = true) :
    setBypass st name true =
      { st with
        pending := st.pending ++ [⟨e.prev, e.node, e.next⟩],
        bypassState := updateA st.bypassState name true,
        rampLog := st.rampLog ++ [(e.node, 0)] } := by
  simp [setBypass, hbs, hbe, hw, runOps]

/-- Erasing an element and re-appending it is a permutation of the original
list. -/
lemma erase_append_singleton_perm {α : Type} [BEq α] [LawfulBEq α]
    (l : List α) (a : α) (h : a ∈ l) : (l.erase a ++ [a]).Perm l := by
  induction l with
  | nil => cases h
  | cons b l ih =>
    rw [List.erase_cons]
    cases hba : b == a
    · rw [if_neg (by decide)]
      rw [List.cons_append]
      have hmem : a ∈ l := by
        rcases List.mem_cons.mp h with heq | hmem
        · rw [heq] at hba
          rw [beq_self_eq_true] at hba
          cases hba
        · exact hmem
      exact (ih hmem).cons b
    · rw [if_pos rfl]
      have hb : b = a := beq_iff_eq.mp hba
      rw [hb]
      exact List.perm_append_singleton a l

/-- C5: bypass toggling is idempotent and round-trips.  From a clean
bypassed state (flag set, `prev → next` wired, node unwired, nothing
pending), calling `setBypass` twice with the same argument equals calling it
once — the second call is a guard no-op; and un-bypassing then re-bypassing
(letting the scheduled ramp-down swap fire) restores the original topology:
the edge set is a permutation of the original, the flags are unchanged, and
no swap stays pending. -/
theorem toggle_bypass_idempotent_restores
    (st : BypassSt) (name : String) (e : BypassEntry)
    (hnd : st.edges.Nodup)
    (hbs : lookupA st.bypassState name = some true)
    (hbe : lookupA st.bypassable name = some e)
    (hPX : (e.prev, e.next) ∈ st.edges)
    (hPN : (e.prev, e.node) ∉ st.edges)
    (hNX : (e.node, e.next) ∉ st.edges)
    (hpend : st.pending = [])
    (hPneqN : e.prev ≠ e.node) :
    (∀ b, setBypass (setBypass st name b) name b = setBypass st name b) ∧
    (firePending (setBypass (setBypass st name false) name true)).edges.Perm
        st.edges ∧
    (firePending (setBypass (setBypass st name false) name true)).bypassState =
        st.bypassState ∧
    (firePending (setBypass (setBypass st name false) name true)).pending = [] := by
  have hs1 := setBypass_unbypass_clean st name e hbs hbe hPX hPN hNX hPneqN
  have hbs1 : lookupA (setBypass st name false).bypassState name = some false := by
    rw [hs1]
    exact lookupA_updateA_self _ _ _ _ hbs
  have hbe1 : lookupA (setBypass st name false).bypassable name = some e := by
    rw [hs1]
    exact hbe
  have hPN2 : (e.prev, e.node) ∉ st.edges.erase (e.prev, e.next) :=
    fun h => hPN (List.mem_of_mem_erase h)
  have hNX2 : (e.node, e.next) ∉ st.edges.erase (e.prev, e.next) :=
    fun h => hNX (List.mem_of_mem_erase h)
  have hPX2 : (e.prev, e.next) ∉ st.edges.erase (e.prev, e.next) :=
    hnd.not_mem_erase
  -- erasing the spliced edges recovers the erased direct edge position
  have hA1 : ((st.edges.erase (e.prev, e.next)) ++
      [(e.prev, e.node), (e.node, e.next)]).erase (e.prev, e.node) =
      st.edges.erase (e.prev, e.next) ++ [(e.node, e.next)] := by
    rw [List.erase_append_right _ hPN2, List.erase_cons_head]
  have hA2 : ((st.edges.erase (e.prev, e.next)) ++
      [(e.node, e.next)]).erase (e.node, e.next) =
      st.edges.erase (e.prev, e.next) := by
    rw [List.erase_append_right _ hNX2, List.erase_cons_head, List.append_nil]
  have hperm : (st.edges.erase (e.prev, e.next) ++ [(e.prev, e.next)]).Perm
      st.edges :=
    erase_append_singleton_perm st.edges (e.prev, e.next) hPX
  have hbsrt : updateA (updateA st.bypassState name false) name true =
      st.bypassState := by
    rw [updateA_updateA, updateA_eq_self _ _ _ hbs]
  constructor
  · intro b
    cases b
    · exact setBypass_noop _ name false hbs1
    · simp only [setBypass_noop st name true hbs]
  · cases hw : e.hasWet
    · -- node has no wet control: re-bypassing swaps immediately, nothing
      -- is ever pending
      have hs2 : setBypass (setBypass st name false) name true =
          { setBypass st name false with
            edges := st.edges.erase (e.prev, e.next) ++ [(e.prev, e.next)],
            bypassState := updateA (updateA st.bypassState name false)
              name true } := by
        rw [setBypass, hbs1, hbe1, hs1]
        simp [runOps, hw, hA1, hA2, hPX2]
      rw [hs2]
      rw [firePending]
      simp only [hs1, hpend]
      exact ⟨hperm, hbsrt, trivial⟩
    · -- node has a wet control: the swap is scheduled and fired
      have hs2 : setBypass (setBypass st name false) name true =
          { setBypass st name false with
            pending := (setBypass st name false).pending ++
              [⟨e.prev, e.node, e.next⟩],
            bypassState := updateA (updateA st.bypassState name false)
              name true,
            rampLog := (setBypass st name false).rampLog ++ [(e.node, 0)] } := by
      -- (the un-bypassed flag makes the guard pass; hasWet selects the
      -- ramp-and-schedule branch)
        have := setBypass_bypass_wet (setBypass st name false) name e hbs1 hbe1 hw
        rw [this, hs1]
      rw [hs2]
      rw [firePending]
      simp only [hs1, hpend, List.nil_append]
      have m1 : (e.prev, e.node) ∈
          st.edges.erase (e.prev, e.next) ++
            [(e.prev, e.node), (e.node, e.next)] := by simp
      have m2 : (e.node, e.next) ∈
          st.edges.erase (e.prev, e.next) ++ [(e.node, e.next)] := by simp
      rw [runOps, if_pos m1]
      simp only [hA1]
      rw [runOps, if_pos m2]
      simp only [hA2]
      rw [runOps, if_neg hPX2, runOps]
      refine ⟨?_, ?_, ?_⟩
      · simpa using hperm
      · simpa using hbsrt
      · simp

/-- Witness for `toggle_bypass_idempotent_restores` at the concrete zodiac
phaser bypass entry in its initial wired state. -/
theorem toggle_bypass_idempotent_restores_witness :
    (∀ b, setBypass (setBypass
        ⟨[("chorus", "monitorEQ")], [("phaser", true)],
         [("phaser", ⟨"phaser", "chorus", "monitorEQ", true, 0⟩)], [], []⟩
        "phaser" b) "phaser" b =
      setBypass
        ⟨[("chorus", "monitorEQ")], [("phaser", true)],
         [("phaser", ⟨"phaser", "chorus", "monitorEQ", true, 0⟩)], [], []⟩
        "phaser" b) ∧
    (firePending (setBypass (setBypass
        ⟨[("chorus", "monitorEQ")], [("phaser", true)],
         [("phaser", ⟨"phaser", "chorus", "monitorEQ", true, 0⟩)], [], []⟩
        "phaser" false) "phaser" true)).edges.Perm
      [("chorus", "monitorEQ")] ∧
    (firePending (setBypass (setBypass
        ⟨[("chorus", "monitorEQ")], [("phaser", true)],
         [("phaser", ⟨"phaser", "chorus", "monitorEQ", true, 0⟩)], [], []⟩
        "phaser" false) "phaser" true)).bypassState = [("phaser", true)] ∧
    (firePending (setBypass (setBypass
        ⟨[("chorus", "monitorEQ")], [("phaser", true)],
         [("phaser", ⟨"phaser", "chorus", "monitorEQ", true, 0⟩)], [], []⟩
        "phaser" false) "phaser" true)).pending = [] :=
  toggle_bypass_idempotent_restores
    ⟨[("chorus", "monitorEQ")], [("phaser", true)],
     [("phaser", ⟨"phaser", "chorus", "monitorEQ", true, 0⟩)], [], []⟩
    "phaser" ⟨"phaser", "chorus", "monitorEQ", true, 0⟩
    (by decide) (by decide) (by decide) (by decide) (by decide) (by decide)
    (by decide) (by decide)

/-- C4 counterexample: a second toggle requested while a prior toggle's
ramp-down is in flight is NOT applied, and the pending swap is NOT
cancelled.  From the initial bypassed phaser state, un-bypass, then bypass
(which ramps down and schedules the swap), then immediately un-bypass
again: after the third call the swap scheduled by the second call is still
pending, and once it fires the node ends bypassed — the opposite of the
latest request. -/
theorem bypass_race_latest_request_lost :
    (setBypass (setBypass (setBypass
        ⟨[("chorus", "monitorEQ")], [("phaser", true)],
         [("phaser", ⟨"phaser", "chorus", "monitorEQ", true, 0⟩)], [], []⟩
        "phaser" false) "phaser" true) "phaser" false).pending =
      [⟨"chorus", "phaser", "monitorEQ"⟩] ∧
    lookupA (firePending (setBypass (setBypass (setBypass
        ⟨[("chorus", "monitorEQ")], [("phaser", true)],
         [("phaser", ⟨"phaser", "chorus", "monitorEQ", true, 0⟩)], [], []⟩
        "phaser" false) "phaser" true) "phaser" false)).bypassState
      "phaser" = some true ∧
    (firePending (setBypass (setBypass (setBypass
        ⟨[("chorus", "monitorEQ")], [("phaser", true)],
         [("phaser", ⟨"phaser", "chorus", "monitorEQ", true, 0⟩)], [], []⟩
        "phaser" false) "phaser" true) "phaser" false)).edges =
      [("chorus", "monitorEQ")] := by
  refine ⟨?_, ?_, ?_⟩ <;> decide

/-- C4 amended: `setBypass` does not cancel an in-flight ramp-down or its
pending swap.  The conflicting rewiring of the later request throws on its
first disconnect and the surrounding catch swallows it, leaving the state
exactly as the second call left it (swap still pending, wet still ramping
to 0); when the pending swap fires, the node ends bypassed — the earlier
request wins.  No error is surfaced to the caller: the swallowed failure
leaves every field of the state intact. -/
theorem bypass_race_swallowed_behavior :
    setBypass (setBypass (setBypass
        ⟨[("chorus", "monitorEQ")], [("phaser", true)],
         [("phaser", ⟨"phaser", "chorus", "monitorEQ", true, 0⟩)], [], []⟩
        "phaser" false) "phaser" true) "phaser" false =
      ⟨[("chorus", "phaser"), ("phaser", "monitorEQ")], [("phaser", true)],
       [("phaser", ⟨"phaser", "chorus", "monitorEQ", true, 0⟩)],
       [⟨"chorus", "phaser", "monitorEQ"⟩],
       [("phaser", 1), ("phaser", 0)]⟩ ∧
    firePending (setBypass (setBypass (setBypass
        ⟨[("chorus", "monitorEQ")], [("phaser", true)],
         [("phaser", ⟨"phaser", "chorus", "monitorEQ", true, 0⟩)], [], []⟩
        "phaser" false) "phaser" true) "phaser" false) =
      ⟨[("chorus", "monitorEQ")], [("phaser", true)],
       [("phaser", ⟨"phaser", "chorus", "monitorEQ", true, 0⟩)], [],
       [("phaser", 1), ("phaser", 0)]⟩ := by
  refine ⟨?_, ?_⟩ <;> decide

/- ═══════════ Direct parameter setter (setParam, App.js) ═══════════ -/

/-- The key set of `KNOB_MAP` in `src/App.js`, in source order: the only
names for which `setParam` applies anything to the engine. -/
def KNOB_MAP_NAMES : List String :=
  ["attack", "decay", "sustain", "release", "chebyWet", "chebyOrder",
   "eqHigh", "eqMid", "eqLow", "vibratoFreq", "vibratoDepth", "vibratoWet",
   "delayTime", "delayFeedback", "delayWet", "echoFilterFreq", "reverbRoom",
   "reverbDamp", "reverbWet", "dampSweepRate", "dampSweepDepth",
   "panLfoFreq", "panLfoAmplitude", "phaserFreq", "phaserOctaves",
   "phaserBase", "phaserQ", "phaserWet", "chorusWet", "chorusFreq",
   "chorusDelay", "chorusDepth", "distortion", "distortionWet", "eqHighFreq"]

/-- JS object property write: update an existing key in place, append a new
one. -/
def setA {α : Type} (l : List (String × α)) (k : String) (v : α) :
    List (String × α) :=
  match lookupA l k with
  | some _ => updateA l k v
  | none => l ++ [(k, v)]

/-- State touched by `setParam`: the `paramsRef` map and the log of
parameter applications performed on the engine via `KNOB_MAP`. -/
structure ParamState where
  params : List (String × ℚ)
  engineLog : List (String × ℚ)
deriving DecidableEq, Repr

/-- The `setParam(name, value)` from `src/App.js`: always stores
`p[name] = value`, then `KNOB_MAP[name]?.apply(eng, value)` — the optional
chaining makes the engine application a silent no-op for names without a
`KNOB_MAP` entry, and no code path throws or reports an error. -/
def setParam (st : ParamState) (name : String) (v : ℚ) : ParamState :=
  { params := setA st.params name v,
    engineLog :=
      if name ∈ KNOB_MAP_NAMES then st.engineLog ++ [(name, v)]
      else st.engineLog }

/-- C7 counterexample: setting the unknown parameter name `"echoFeedback"`
(a knob name from a sibling engine revision, absent from `KNOB_MAP`) is NOT
rejected: `setParam` returns normally, stores the value in the params map,
and applies nothing to the engine — a silent no-op instead of the usage
error the claim requires. -/
theorem set_param_unknown_silent :
    setParam ⟨[], []⟩ "echoFeedback" 1 = ⟨[("echoFeedback", 1)], []⟩ := by
  decide

/-- C7 amended: for every name outside `KNOB_MAP`, `setParam` silently
ignores the write at the engine level — the engine application log is
unchanged — while still recording the value in the params map; no error is
signalled on any path. -/
theorem set_param_unknown_no_engine_effect (st : ParamState) (name : String)
    (v : ℚ) (h : name ∉ KNOB_MAP_NAMES) :
    (setParam st name v).engineLog = st.engineLog ∧
    (setParam st name v).params = setA st.params name v := by
  rw [setParam]
  exact ⟨by rw [if_neg h], rfl⟩

/-- Witness for `set_param_unknown_no_engine_effect` at a concrete state and
the concrete unknown name `"echoFeedback"`. -/
theorem set_param_unknown_no_engine_effect_witness :
    (setParam ⟨[("attack", 2)], [("attack", 2)]⟩ "echoFeedback"
        1).engineLog = [("attack", 2)] ∧
    (setParam ⟨[("attack", 2)], [("attack", 2)]⟩ "echoFeedback"
        1).params = setA [("attack", 2)] "echoFeedback" 1 :=
  set_param_unknown_no_engine_effect ⟨[("attack", 2)], [("attack", 2)]⟩
    "echoFeedback" 1 (by decide)

/- ═══════════ Chaos mode / Eclipse (toggleShadow, App.js) ═══════════ -/

/-- One entry of the `SIGNS` table in `src/App.js` (glyph omitted): note
class, detune (cents), octave, velocity, stereo base, pan group, oscillator
count and spread. -/
structure SignCfg where
  name : String
  octave : ℕ
  vel : ℚ
  note : String
  detuneCents : ℚ
  panBase : ℚ
  panGroup : String
  oscCount : ℕ
  oscSpread : ℚ

/-- The 12 zodiac sign configurations of `SIGNS` in `src/App.js`. -/
def SIGNS : List SignCfg := [
  ⟨"Aquarius", 3, 0.33, "C", 6, -0.7, "A", 2, 5⟩,
  ⟨"Pisces", 5, 0.38, "Db", -6.5, 0.65, "D", 3, 12⟩,
  ⟨"Aries", 4, 0.52, "D", -12.5, -0.4, "B", 2, 8⟩,
  ⟨"Taurus", 3, 0.5, "Eb", 5, 0.55, "C", 2, 5⟩,
  ⟨"Gemini", 5, 0.48, "E", 16.5, -0.3, "B", 3, 12⟩,
  ⟨"Cancer", 4, 0.6, "F", 11.5, 0.7, "D", 2, 8⟩,
  ⟨"Leo", 3, 0.65, "Gb", 19, 0.1, "B", 2, 5⟩,
  ⟨"Virgo", 5, 0.45, "G", 16.5, -0.6, "A", 3, 12⟩,
  ⟨"Libra", 4, 0.47, "Ab", 5, 0.35, "C", 2, 8⟩,
  ⟨"Scorpio", 3, 0.48, "A", -12.5, -0.2, "C", 2, 5⟩,
  ⟨"Sagittarius", 5, 0.4, "Bb", -6.5, 0.15, "D", 3, 12⟩,
  ⟨"Capricorn", 4, 0.35, "B", 6, -0.55, "A", 2, 8⟩]

/-- The chaos-affected FX ramp targets (the eight parameters `toggleShadow`
ramps): reverb wet, delay feedback, delay wet, vibrato depth, vibrato
frequency, chebyshev wet, pan-LFO frequency and amplitude.  Also used as the
shape of the live knob snapshot (`paramsRef.current`) restricted to those
parameters. -/
structure FxParams where
  reverbWet : ℚ
  delayFeedback : ℚ
  delayWet : ℚ
  vibratoDepth : ℚ
  vibratoFreq : ℚ
  chebyWet : ℚ
  panLfoFreq : ℚ
  panLfoAmplitude : ℚ

/-- The `SHADOW` chaos targets from `src/tuning.js` (the eight ramped params). -/
def SHADOW_targets : FxParams := ⟨0.8, 0.87, 0.86, 0.72, 0.06, 1.0, 0.18, 0.55⟩

/-- The `SHADOW.oscSpread` from `src/tuning.js`. -/
def SHADOW_oscSpread : ℚ := 120

/-- The `SHADOW.detuneRange` from `src/tuning.js`. -/
def SHADOW_detuneRange : ℚ := 15

/-- Engine state touched by `toggleShadow`: current ramp targets of the
chaos-affected FX params, the per-voice `spreadTracker` and `detuneTracker`,
the `shadowIntervalsRef` handle list, and the `shadow` flag. -/
structure ShadowEng where
  fx : FxParams
  spread : String → ℚ
  detune : String → ℚ
  intervals : List ℕ
  shadow : Bool

/-- Transport handle of the spread-widening periodic process. -/
def spreadIntervalId : ℕ := 0

/-- Transport handle of the detune-drift periodic process. -/
def detuneIntervalId : ℕ := 1

/-- The oscillator type a sign renders with:
`activeOscTypeRef.current ?? SIGN_CHARACTER[name].oscType`. -/
def signType (oscTypeOf : String → String) (activeOsc : Option String)
    (name : String) : String :=
  activeOsc.getD (oscTypeOf name)

/-- Pointwise function update used for the per-sign trackers. -/
def upd (f : String → ℚ) (k : String) (v : ℚ) : String → ℚ :=
  fun n => if n = k then v else f n

/-- The `spreadTracker` and `detuneTracker` initial values from `createEngine`:
each sign starts at its static `oscSpread` / `detuneCents`. -/
def initSpread : String → ℚ := fun n =>
  match SIGNS.find? (fun c => c.name == n) with
  | some c => c.oscSpread
  | none => 0

/-- Initial `detuneTracker` (see `initSpread`). -/
def initDetune : String → ℚ := fun n =>
  match SIGNS.find? (fun c => c.name == n) with
  | some c => c.detuneCents
  | none => 0

/-- Per-sign body of the spread-widening tick: a fat-type sign below
`SHADOW.oscSpread` steps its spread by 4 toward it; AM/FM signs are
skipped. -/
def spreadStep (oscTypeOf : String → String) (activeOsc : Option String)
    (f : String → ℚ) (c : SignCfg) : String → ℚ :=
  if (signType oscTypeOf activeOsc c.name).startsWith "fat" then
    if f c.name < SHADOW_oscSpread then
      upd f c.name (min (f c.name + 4) SHADOW_oscSpread)
    else f
  else f

/-- One tick of the chaos spread-widening process in `toggleShadow`: step
every fat-type sign, and once every fat sign has arrived the event clears
itself from the transport. -/
def spreadTick (oscTypeOf : String → String) (activeOsc : Option String)
    (eng : ShadowEng) : ShadowEng :=
  { eng with
    spread := SIGNS.foldl (spreadStep oscTypeOf activeOsc) eng.spread,
    intervals :=
      if SIGNS.all (fun c =>
          !((signType oscTypeOf activeOsc c.name).startsWith "fat") ||
          !(decide (eng.spread c.name < SHADOW_oscSpread))) then
        eng.intervals.erase spreadIntervalId
      else eng.intervals }

/-- Per-sign body of the detune-drift tick: lerp 30% of the way toward the
random target `base + r * SHADOW.detuneRange`. -/
def detuneStep (rands : String → ℚ) (f : String → ℚ) (c : SignCfg) :
    String → ℚ :=
  upd f c.name
    (f c.name +
      (c.detuneCents + rands c.name * SHADOW_detuneRange - f c.name) * 0.3)

/-- One tick of the chaos detune-drift process in `toggleShadow`
(`r ∈ [-1,1]` supplied per sign by `rands`). -/
def detuneTick (rands : String → ℚ) (eng : ShadowEng) : ShadowEng :=
  { eng with detune := SIGNS.foldl (detuneStep rands) eng.detune }

/-- Events that can occur while chaos mode is active. -/
inductive ChaosEv where
  | spreadTick
  | detuneTick (rands : String → ℚ)

/-- Run a sequence of chaos-period events. -/
def runChaos (oscTypeOf : String → String) (activeOsc : Option String) :
    List ChaosEv → ShadowEng → ShadowEng
  | [], eng => eng
  | .spreadTick :: rest, eng =>
    runChaos oscTypeOf activeOsc rest (spreadTick oscTypeOf activeOsc eng)
  | .detuneTick rands :: rest, eng =>
    runChaos oscTypeOf activeOsc rest (detuneTick rands eng)

/-- Per-sign spread restore body of `restoreSpreadAndDetune` in
`src/App.js`: reset a fat-type sign's oscillator spread to its static
default. -/
def restoreSpreadStep (oscTypeOf : String → String)
    (activeOsc : Option String) (f : String → ℚ) (c : SignCfg) :
    String → ℚ :=
  if (signType oscTypeOf activeOsc c.name).startsWith "fat" then
    upd f c.name c.oscSpread
  else f

/-- Per-sign detune restore body of `restoreSpreadAndDetune`. -/
def restoreDetuneStep (f : String → ℚ) (c : SignCfg) : String → ℚ :=
  upd f c.name c.detuneCents

/-- The full `restoreSpreadAndDetune` pass over all signs. -/
def restoreSpreadAndDetune (oscTypeOf : String → String)
    (activeOsc : Option String) (eng : ShadowEng) : ShadowEng :=
  { eng with
    spread := SIGNS.foldl (restoreSpreadStep oscTypeOf activeOsc) eng.spread,
    detune := SIGNS.foldl restoreDetuneStep eng.detune }

/-- The `toggleShadow` from `src/App.js`.  Enable: ramp the eight FX params to
the `SHADOW` targets and start the two periodic drift processes.  Disable:
clear both periodic processes, ramp the eight FX params to the current live
knob snapshot `saved = paramsRef.current`, and restore spread and detune to
their per-sign defaults. -/
def toggleShadow (oscTypeOf : String → String) (activeOsc : Option String)
    (saved : FxParams) (eng : ShadowEng) : ShadowEng :=
  if eng.shadow = false then
    { eng with
      fx := SHADOW_targets,
      intervals := [spreadIntervalId, detuneIntervalId],
      shadow := true }
  else
    restoreSpreadAndDetune oscTypeOf activeOsc
      { eng with intervals := [], fx := saved, shadow := false }

lemma signs_names_nodup : (SIGNS.map SignCfg.name).Nodup := by
  decide

/-- A per-sign fold step that only writes at its own sign's name leaves
every unlisted name untouched. -/
lemma foldl_step_preserve (G : (String → ℚ) → SignCfg → (String → ℚ))
    (hG : ∀ f c n, n ≠ c.name → G f c n = f n) :
    ∀ (l : List SignCfg) (g : String → ℚ) (n : String),
      (∀ c ∈ l, c.name ≠ n) → (l.foldl G g) n = g n := by
  intro l
  induction l with
  | nil => intro g n _; rfl
  | cons d rest ih =>
    intro g n h
    rw [List.foldl_cons, ih (G g d) n (fun c hc => h c (List.mem_cons_of_mem d hc))]
    exact hG g d n fun hn => h d (List.mem_cons_self d rest) hn.symm

lemma name_ne_of_nodup (d : SignCfg) (rest : List SignCfg)
    (hnd : ((d :: rest).map SignCfg.name).Nodup) :
    ∀ c ∈ rest, c.name ≠ d.name := by
  rw [List.map_cons, List.nodup_cons] at hnd
  intro c hc heq
  exact hnd.1 (heq ▸ List.mem_map_of_mem SignCfg.name hc)

/-- If the step writes the fixed value `v` at its own sign's name, the fold
over a duplicate-free sign list ends with `v` there. -/
lemma foldl_step_writes (G : (String → ℚ) → SignCfg → (String → ℚ))
    (hG : ∀ f c n, n ≠ c.name → G f c n = f n) :
    ∀ (l : List SignCfg) (g : String → ℚ) (c : SignCfg) (v : ℚ),
      c ∈ l → (l.map SignCfg.name).Nodup →
      (∀ f, G f c c.name = v) → (l.foldl G g) c.name = v := by
  intro l
  induction l with
  | nil => intro g c v hc; cases hc
  | cons d rest ih =>
    intro g c v hc hnd hv
    rw [List.foldl_cons]
    rcases List.mem_cons.mp hc with rfl | hc2
    · rw [foldl_step_preserve G hG rest (G g c) c.name
        (name_ne_of_nodup c rest hnd)]
      exact hv g
    · exact ih (G g d) c v hc2
        (by rw [List.map_cons, List.nodup_cons] at hnd; exact hnd.2) hv

/-- If the step keeps its own sign's value, the fold over a duplicate-free
sign list keeps it too. -/
lemma foldl_step_keeps (G : (String → ℚ) → SignCfg → (String → ℚ))
    (hG : ∀ f c n, n ≠ c.name → G f c n = f n) :
    ∀ (l : List SignCfg) (g : String → ℚ) (c : SignCfg),
      c ∈ l → (l.map SignCfg.name).Nodup →
      (∀ f, G f c c.name = f c.name) → (l.foldl G g) c.name = g c.name := by
  intro l
  induction l with
  | nil => intro g c hc; cases hc
  | cons d rest ih =>
    intro g c hc hnd hv
    rw [List.foldl_cons]
    rcases List.mem_cons.mp hc with rfl | hc2
    · rw [foldl_step_preserve G hG rest (G g c) c.name
        (name_ne_of_nodup c rest hnd)]
      exact hv g
    · rw [ih (G g d) c hc2
        (by rw [List.map_cons, List.nodup_cons] at hnd; exact hnd.2) hv]
      exact hG g d c.name (name_ne_of_nodup d rest hnd c hc2)

lemma spreadStep_other (oscTypeOf : String → String)
    (activeOsc : Option String) (f : String → ℚ) (c : SignCfg) (n : String)
    (hn : n ≠ c.name) : spreadStep oscTypeOf activeOsc f c n = f n := by
  rw [spreadStep]
  split
  · split
    · rw [upd, if_neg hn]
    · rfl
  · rfl

lemma spreadStep_nonfat (oscTypeOf : String → String)
    (activeOsc : Option String) (f : String → ℚ) (c : SignCfg)
    (hf : (signType oscTypeOf activeOsc c.name).startsWith "fat" = false) :
    spreadStep oscTypeOf activeOsc f c = f := by
  rw [spreadStep, hf]
  simp

lemma detuneStep_other (rands : String → ℚ) (f : String → ℚ) (c : SignCfg)
    (n : String) (hn : n ≠ c.name) : detuneStep rands f c n = f n := by
  rw [detuneStep, upd, if_neg hn]

lemma restoreSpreadStep_other (oscTypeOf : String → String)
    (activeOsc : Option String) (f : String → ℚ) (c : SignCfg) (n : String)
    (hn : n ≠ c.name) : restoreSpreadStep oscTypeOf activeOsc f c n = f n := by
  rw [restoreSpreadStep]
  split
  · rw [upd, if_neg hn]
  · rfl

lemma restoreDetuneStep_other (f : String → ℚ) (c : SignCfg) (n : String)
    (hn : n ≠ c.name) : restoreDetuneStep f c n = f n := by
  rw [restoreDetuneStep, upd, if_neg hn]

set_option maxHeartbeats 1000000 in
lemma spreadTick_spread (oscTypeOf : String → String)
    (activeOsc : Option String) (eng : ShadowEng) :
    (spreadTick oscTypeOf activeOsc eng).spread =
      SIGNS.foldl (spreadStep oscTypeOf activeOsc) eng.spread := rfl

set_option maxHeartbeats 1000000 in
lemma restore_spread_eq (oscTypeOf : String → String)
    (activeOsc : Option String) (eng : ShadowEng) :
    (restoreSpreadAndDetune oscTypeOf activeOsc eng).spread =
      SIGNS.foldl (restoreSpreadStep oscTypeOf activeOsc) eng.spread := rfl

set_option maxHeartbeats 1000000 in
lemma restore_detune_eq (oscTypeOf : String → String)
    (activeOsc : Option String) (eng : ShadowEng) :
    (restoreSpreadAndDetune oscTypeOf activeOsc eng).detune =
      SIGNS.foldl restoreDetuneStep eng.detune := rfl

/-- The chaos processes never change the `shadow` flag. -/
lemma runChaos_shadow (oscTypeOf : String → String) (activeOsc : Option String) :
    ∀ (evs : List ChaosEv) (eng : ShadowEng),
      (runChaos oscTypeOf activeOsc evs eng).shadow = eng.shadow := by
  intro evs
  induction evs with
  | nil => intro eng; rfl
  | cons ev rest ih =>
    intro eng
    cases ev
    · rw [runChaos, ih]; rfl
    · rw [runChaos, ih]; rfl

/-- The chaos processes keep every non-fat sign's spread at its default:
the spread tick skips AM/FM signs and the detune tick never touches
spread. -/
lemma runChaos_nonfat_spread (oscTypeOf : String → String)
    (activeOsc : Option String) :
    ∀ (evs : List ChaosEv) (eng : ShadowEng),
      (∀ c ∈ SIGNS,
        (signType oscTypeOf activeOsc c.name).startsWith "fat" = false →
        eng.spread c.name = c.oscSpread) →
      ∀ c ∈ SIGNS,
        (signType oscTypeOf activeOsc c.name).startsWith "fat" = false →
        (runChaos oscTypeOf activeOsc evs eng).spread c.name = c.oscSpread := by
  intro evs
  induction evs with
  | nil => intro eng h; exact h
  | cons ev rest ih =>
    intro eng h
    cases ev
    · have hstep : runChaos oscTypeOf activeOsc (ChaosEv.spreadTick :: rest)
          eng = runChaos oscTypeOf activeOsc rest
            (spreadTick oscTypeOf activeOsc eng) := rfl
      rw [hstep]
      refine ih _ fun c hc hf => ?_
      have hkeep : (spreadTick oscTypeOf activeOsc eng).spread c.name =
          eng.spread c.name := by
        rw [spreadTick_spread]
        exact foldl_step_keeps _ (spreadStep_other oscTypeOf activeOsc)
          SIGNS eng.spread c hc signs_names_nodup
          (fun f => by rw [spreadStep_nonfat oscTypeOf activeOsc f c hf])
      rw [hkeep]
      exact h c hc hf
    · rename_i rands
      have hstep : runChaos oscTypeOf activeOsc
          (ChaosEv.detuneTick rands :: rest) eng =
            runChaos oscTypeOf activeOsc rest (detuneTick rands eng) := rfl
      rw [hstep]
      refine ih _ fun c hc hf => ?_
      exact h c hc hf

/-- C6: chaos round trip.  Starting from an idle engine whose spread
trackers sit at their per-sign defaults, enabling Eclipse, running any
sequence of drift ticks, and then disabling it: cancels both periodic
processes, ramps all eight chaos-affected FX parameters (reverb wet, delay
feedback, delay wet, vibrato depth, vibrato frequency, chebyshev wet,
pan-LFO frequency and amplitude) to the live knob snapshot passed at
disable time — so knob edits made while chaos was active win over the
pre-chaos snapshot `p0` — and resets every sign's spread and detune tracker
to its static per-sign default. -/
theorem chaos_disable_restores_snapshot (oscTypeOf : String → String)
    (activeOsc : Option String) (p0 p : FxParams) (evs : List ChaosEv)
    (eng0 : ShadowEng) (hsh : eng0.shadow = false)
    (hdef : ∀ c ∈ SIGNS, eng0.spread c.name = c.oscSpread) :
    (toggleShadow oscTypeOf activeOsc p
        (runChaos oscTypeOf activeOsc evs
          (toggleShadow oscTypeOf activeOsc p0 eng0))).intervals = [] ∧
    (toggleShadow oscTypeOf activeOsc p
        (runChaos oscTypeOf activeOsc evs
          (toggleShadow oscTypeOf activeOsc p0 eng0))).shadow = false ∧
    (toggleShadow oscTypeOf activeOsc p
        (runChaos oscTypeOf activeOsc evs
          (toggleShadow oscTypeOf activeOsc p0 eng0))).fx = p ∧
    (∀ c ∈ SIGNS,
      (toggleShadow oscTypeOf activeOsc p
        (runChaos oscTypeOf activeOsc evs
          (toggleShadow oscTypeOf activeOsc p0 eng0))).spread c.name =
        c.oscSpread) ∧
    (∀ c ∈ SIGNS,
      (toggleShadow oscTypeOf activeOsc p
        (runChaos oscTypeOf activeOsc evs
          (toggleShadow oscTypeOf activeOsc p0 eng0))).detune c.name =
        c.detuneCents) := by
  have hon : toggleShadow oscTypeOf activeOsc p0 eng0 =
      { eng0 with
        fx := SHADOW_targets,
        intervals := [spreadIntervalId, detuneIntervalId],
        shadow := true } := by
    rw [toggleShadow, if_pos hsh]
  have hsh2 : (runChaos oscTypeOf activeOsc evs
      (toggleShadow oscTypeOf activeOsc p0 eng0)).shadow = true := by
    rw [runChaos_shadow, hon]
  have hoff : toggleShadow oscTypeOf activeOsc p
      (runChaos oscTypeOf activeOsc evs
        (toggleShadow oscTypeOf activeOsc p0 eng0)) =
      restoreSpreadAndDetune oscTypeOf activeOsc
        { runChaos oscTypeOf activeOsc evs
            (toggleShadow oscTypeOf activeOsc p0 eng0) with
          intervals := [], fx := p, shadow := false } := by
    rw [toggleShadow, if_neg (by rw [hsh2]; decide)]
  have hinv1 : ∀ c ∈ SIGNS,
      (signType oscTypeOf activeOsc c.name).startsWith "fat" = false →
      (toggleShadow oscTypeOf activeOsc p0 eng0).spread c.name =
        c.oscSpread := by
    intro c hc _
    rw [hon]
    exact hdef c hc
  rw [hoff]
  refine ⟨rfl, rfl, rfl, ?_, ?_⟩
  · intro c hc
    rw [restore_spread_eq]
    by_cases hf : (signType oscTypeOf activeOsc c.name).startsWith "fat" = true
    · exact foldl_step_writes _
        (restoreSpreadStep_other oscTypeOf activeOsc) SIGNS _ c c.oscSpread
        hc signs_names_nodup
        (fun f => by rw [restoreSpreadStep, if_pos hf]; simp [upd])
    · have hf2 : (signType oscTypeOf activeOsc c.name).startsWith "fat" =
          false := by
        simpa using hf
      rw [foldl_step_keeps _ (restoreSpreadStep_other oscTypeOf activeOsc)
        SIGNS _ c hc signs_names_nodup
        (fun f => by rw [restoreSpreadStep, hf2]; simp)]
      exact runChaos_nonfat_spread oscTypeOf activeOsc evs _ hinv1 c hc hf2
  · intro c hc
    rw [restore_detune_eq]
    exact foldl_step_writes _ restoreDetuneStep_other SIGNS _ c c.detuneCents
      hc signs_names_nodup (fun f => by rw [restoreDetuneStep]; simp [upd])

/-- Witness for `chaos_disable_restores_snapshot`: a concrete round trip
from the engine's initial tracker state through one spread tick and one
detune tick, disabling with an edited snapshot. -/
theorem chaos_disable_restores_snapshot_witness :
    (toggleShadow (fun _ => "fatsawtooth") none ⟨1, 0, 0, 0, 0, 0, 0, 0⟩
        (runChaos (fun _ => "fatsawtooth") none
          [ChaosEv.spreadTick, ChaosEv.detuneTick (fun _ => 1)]
          (toggleShadow (fun _ => "fatsawtooth") none
            ⟨0.42, 0.42, 0.28, 0.22, 0.12, 0.5, 0.04, 0.18⟩
            ⟨⟨0.42, 0.42, 0.28, 0.22, 0.12, 0.5, 0.04, 0.18⟩, initSpread,
             initDetune, [], false⟩))).intervals = [] ∧
    (toggleShadow (fun _ => "fatsawtooth") none ⟨1, 0, 0, 0, 0, 0, 0, 0⟩
        (runChaos (fun _ => "fatsawtooth") none
          [ChaosEv.spreadTick, ChaosEv.detuneTick (fun _ => 1)]
          (toggleShadow (fun _ => "fatsawtooth") none
            ⟨0.42, 0.42, 0.28, 0.22, 0.12, 0.5, 0.04, 0.18⟩
            ⟨⟨0.42, 0.42, 0.28, 0.22, 0.12, 0.5, 0.04, 0.18⟩, initSpread,
             initDetune, [], false⟩))).shadow = false ∧
    (toggleShadow (fun _ => "fatsawtooth") none ⟨1, 0, 0, 0, 0, 0, 0, 0⟩
        (runChaos (fun _ => "fatsawtooth") none
          [ChaosEv.spreadTick, ChaosEv.detuneTick (fun _ => 1)]
          (toggleShadow (fun _ => "fatsawtooth") none
            ⟨0.42, 0.42, 0.28, 0.22, 0.12, 0.5, 0.04, 0.18⟩
            ⟨⟨0.42, 0.42, 0.28, 0.22, 0.12, 0.5, 0.04, 0.18⟩, initSpread,
             initDetune, [], false⟩))).fx = ⟨1, 0, 0, 0, 0, 0, 0, 0⟩ :=
  let h := chaos_disable_restores_snapshot (fun _ => "fatsawtooth") none
    ⟨0.42, 0.42, 0.28, 0.22, 0.12, 0.5, 0.04, 0.18⟩ ⟨1, 0, 0, 0, 0, 0, 0, 0⟩
    [ChaosEv.spreadTick, ChaosEv.detuneTick (fun _ => 1)]
    ⟨⟨0.42, 0.42, 0.28, 0.22, 0.12, 0.5, 0.04, 0.18⟩, initSpread,
     initDetune, [], false⟩ rfl
    (by intro c hc; fin_cases hc <;> rfl)
  ⟨h.1, h.2.1, h.2.2.1⟩
